import Mathlib

/-!
Verification of the concurrency core of the `versus` traffic-replication tool
(`client.go`): statistics aggregation (`clientStats.Count` / `Render`),
client construction (`NewClient`), the fan-out sequencer (`Clients.Send`),
the shutdown protocol (`Clients.Finalize`), and the worker loop
(`Client.Serve`).

Modelling conventions:
- Go `int` / `int64` / `time.Duration` values are modelled as `Int` (counts
  that are only ever incremented from zero are modelled as `Nat`);
- Go `float64` arithmetic in `Render` is modelled exactly over `ℚ`;
- Go integer division (which truncates toward zero) is `Int.tdiv`; division
  of an integer by zero is a runtime panic in Go, modelled as `Option.none`;
- the Go `map[string]int` is modelled as an association list built only by
  `incrErr`, so keys stay distinct;
- channels are modelled as explicit queues (`List Request`) plus, for the
  shared output stream, an oracle `full : Nat → Bool` saying whether the
  stream's buffer was full at the i-th send attempt.
-/

namespace Versus

/-- `Request` as used by `client.go` (the struct itself is declared in a
sibling file of the repository; fields are taken from its uses in
`client.go` and §3 of the design: `ID` is the global sequence number with
`-1` reserved as the shutdown sentinel, `Line` the opaque payload,
`Timestamp` the enqueue time). The `client` back-reference is omitted: it
only selects the transport and never feeds back into the logic modelled
here. -/
structure Request where
  ID : Int
  Line : String
  Timestamp : Int
  deriving Repr, DecidableEq

/-- `Response` as produced by `Request.Do` via the transport: `Err` is the
Go `error` (`none` = nil), `Elapsed` the wall-clock duration. -/
structure Response where
  Err : Option String
  Elapsed : Int
  deriving Repr, DecidableEq

/-- The `clientStats` struct of `client.go` (the mutex is a synchronisation
artefact with no logical content; `Errors` is the `map[string]int`,
modelled as an association list). -/
structure clientStats where
  NumTotal : Nat
  NumErrors : Nat
  TimeErrors : Int
  TimeTotal : Int
  Errors : List (String × Nat)
  deriving Repr, DecidableEq

/-- The zero value of `clientStats` (a freshly constructed client: all
counters zero, `Errors` the nil map). -/
def clientStats.init : clientStats :=
  { NumTotal := 0, NumErrors := 0, TimeErrors := 0, TimeTotal := 0, Errors := [] }

/-- `stats.Errors[msg] += 1` on the association-list model of the Go map
(the nil-map initialisation in `Count` corresponds to starting from `[]`). -/
def incrErr (m : List (String × Nat)) (key : String) : List (String × Nat) :=
  match m with
  | [] => [(key, 1)]
  | (k, n) :: rest => if k = key then (k, n + 1) :: rest else (k, n) :: incrErr rest key

/-- Lookup in the association-list model of the Go map; a missing key reads
as `0`, as in Go. -/
def lookupErr (m : List (String × Nat)) (key : String) : Nat :=
  match m with
  | [] => 0
  | (k, n) :: rest => if k = key then n else lookupErr rest key

/-- Sum of the occurrence counts stored in the map. -/
def errSum (m : List (String × Nat)) : Nat :=
  (m.map Prod.snd).sum

/-- `clientStats.Count` from `client.go`: always bump `NumTotal` and add
`elapsed` to `TimeTotal`; when `err` is non-nil additionally bump
`NumErrors`, add `elapsed` to `TimeErrors` and bump the count for the
error's message. -/
def clientStats.Count (stats : clientStats) (err : Option String) (elapsed : Int) :
    clientStats :=
  let s1 : clientStats := { stats with NumTotal := stats.NumTotal + 1 }
  let s2 : clientStats :=
    match err with
    | some msg =>
        { s1 with
          NumErrors := s1.NumErrors + 1
          TimeErrors := s1.TimeErrors + elapsed
          Errors := incrErr s1.Errors msg }
    | none => s1
  { s2 with TimeTotal := s2.TimeTotal + elapsed }

/-- One line (or line fragment) of the report `clientStats.Render` writes.
Numeric payloads carry the exact value of the Go expression behind the
corresponding format verb: `float64` arithmetic over `ℚ`, `time.Duration`
arithmetic over `Int`. -/
inductive RenderItem
  /-- `"   No requests."` -/
  | noRequests
  /-- `"   Requests/Sec: %0.2f"` with `float64(NumTotal) / TimeTotal.Seconds()`. -/
  | requestsPerSec (rps : ℚ)
  /-- `", %s per error"` with `TimeErrors / time.Duration(NumErrors)`. -/
  | perError (errAvg : Int)
  /-- `"   Average:      %s"` with `TimeTotal / time.Duration(NumTotal)`. -/
  | average (reqAvg : Int)
  /-- `"   Errors:       %0.2f%%"` with `float64(NumErrors*100) / float64(NumTotal)`. -/
  | errorRate (pct : ℚ)
  /-- `"   * [%d] %q"` for one entry of the `Errors` map. -/
  | errorLine (num : Nat) (msg : String)
  deriving Repr, DecidableEq

/-- `clientStats.Render` from `client.go`, parameterised by the writer's
behaviour `wErr` (the Go `error` returned by the i-th `fmt.Fprintf`; the
code never inspects these values).

Result: the list of report items written, paired with
* `some r` — the call returned, with `r` the returned Go `error`, or
* `none` — the call panicked before returning.

The code checks `NumTotal == 0` but does not return there: it prints
`"   No requests."` and falls through. `errRate` and `rps` are `float64`
divisions (yielding NaN for 0/0), but
`reqAvg := stats.TimeTotal / time.Duration(stats.NumTotal)` is an integer
division, which panics in Go when `NumTotal == 0`; the panic happens before
any of the subsequent `Fprintf` calls, so only `"   No requests."` has been
written at that point. -/
def clientStats.Render (stats : clientStats) (wErr : Nat → Option String) :
    List RenderItem × Option (Option String) :=
  let pre : List RenderItem :=
    if stats.NumTotal = 0 then [RenderItem.noRequests] else []
  if stats.NumTotal = 0 then
    -- `reqAvg := stats.TimeTotal / time.Duration(stats.NumTotal)` divides the
    -- int64 `TimeTotal` by zero: runtime panic, nothing further is written.
    (pre, none)
  else
    let errRate : ℚ := (stats.NumErrors * 100 : ℚ) / (stats.NumTotal : ℚ)
    let rps : ℚ := (stats.NumTotal : ℚ) / ((stats.TimeTotal : ℚ) / 1000000000)
    let reqAvg : Int := Int.tdiv stats.TimeTotal (stats.NumTotal : Int)
    let items : List RenderItem :=
      pre ++ [RenderItem.requestsPerSec rps]
        ++ (if 0 < stats.NumErrors ∧ stats.NumErrors ≠ stats.NumTotal then
              [RenderItem.perError (Int.tdiv stats.TimeErrors (stats.NumErrors : Int))]
            else [])
        ++ [RenderItem.average reqAvg, RenderItem.errorRate errRate]
        ++ stats.Errors.map (fun p => RenderItem.errorLine p.2 p.1)
    -- the results of all Fprintf calls (including any `wErr i`) are
    -- discarded; the function ends in `return nil`.
    (items, some none)

/-- The `Client` struct of `client.go`. The channel `In` is modelled by its
capacity `InCap` (fixed at `make(chan Request, 2*concurrency)` time) and its
queued contents `InQueue`. -/
structure Client where
  Endpoint : String
  Concurrency : Int
  Timeout : Int
  InCap : Int
  InQueue : List Request
  Stats : clientStats
  deriving Repr, DecidableEq

/-- `NewClient` from `client.go`: builds a client with the given endpoint
and concurrency and `In := make(chan Request, 2*concurrency)`. Go's `make`
panics when the requested capacity `2*concurrency` is negative, modelled as
`none`. Note the capacity uses the concurrency value as passed, before any
coercion (`Serve` coerces `Concurrency < 1` to `1` later, after the channel
already exists). -/
def NewClient (endpoint : String) (concurrency : Int) : Option Client :=
  if 2 * concurrency < 0 then none
  else
    some
      { Endpoint := endpoint
        Concurrency := concurrency
        Timeout := 0
        InCap := 2 * concurrency
        InQueue := []
        Stats := clientStats.init }

/-- The mutation `Client.Serve` performs before starting workers:
`if client.Concurrency < 1 { client.Concurrency = 1 }`. The worker count of
the pool is the `Concurrency` field of the result. -/
def serveCoerce (c : Client) : Client :=
  if c.Concurrency < 1 then { c with Concurrency := 1 } else c

/-- The sentinel request `Request{ID: -1}` sent by `Clients.Finalize`
(remaining fields keep their Go zero values). -/
def sentinel : Request := { ID := -1, Line := "", Timestamp := 0 }

/-- Effect of `Clients.Finalize` on one client: enqueue `client.Concurrency`
sentinel requests (the Go loop `for i := 0; i < client.Concurrency; i++`
runs `max Concurrency 0` times, i.e. `Concurrency.toNat`). -/
def finalizeClient (c : Client) : Client :=
  { c with InQueue := c.InQueue ++ List.replicate c.Concurrency.toNat sentinel }

/-- `Clients.Finalize` from `client.go`: sentinel-inject every client, in
order. -/
def Finalize (cs : List Client) : List Client :=
  cs.map finalizeClient

/-- State of the sequencer: the package-level counter `id` together with the
queues of all clients, in endpoint order. -/
structure SendState where
  id : Int
  queues : List (List Request)
  deriving Repr, DecidableEq

/-- The start of a run: `id` has its zero value `0` and every queue is
empty. -/
def SendState.initial (n : Nat) : SendState :=
  { id := 0, queues := List.replicate n [] }

/-- `Clients.Send` from `client.go` on its uncancelled path: `id += 1`, then
for each client in order enqueue `Request{client, ID: id, Line: line,
Timestamp: time.Now()}` (the `ctx.Done()` arm, which aborts the broadcast
with `ctx.Err()`, is outside this model — the claims concern a Send that is
not cancelled). -/
def Send (st : SendState) (line : String) (now : Int) : SendState :=
  let newId := st.id + 1
  { id := newId
    queues := st.queues.map fun q =>
      q ++ [{ ID := newId, Line := line, Timestamp := now }] }

/-- The ids assigned by a run of `Send` calls, in call order. -/
def runIds (st : SendState) (lines : List (String × Int)) : List Int :=
  match lines with
  | [] => []
  | l :: rest => (Send st l.1 l.2).id :: runIds (Send st l.1 l.2) rest

/-- One event observed by a blocked worker in the `select` at the top of the
loop in `Client.Serve`: either the context is cancelled (`ctx.Done()` fires)
or the next `Request` arrives on `client.In`. -/
inductive WorkerEvent
  | cancel
  | recv (req : Request)
  deriving Repr, DecidableEq

/-- How a worker goroutine of `Client.Serve` left its loop. -/
inductive WorkerExit
  /-- `NewTransport` returned a non-nil error; the goroutine returned it. -/
  | transportError
  /-- the `ctx.Done()` arm fired; `return nil`. -/
  | canceled
  /-- a request with `ID == -1` was dequeued; `return nil`. -/
  | sentinelDone
  /-- the event stream ran out with the worker still blocked in `select`
  (in the real program the goroutine would simply still be waiting). -/
  | stillBlocked
  deriving Repr, DecidableEq

/-- Result of one worker goroutine of `Client.Serve`. -/
structure WorkerOutcome where
  /-- the goroutine's return value (`some e` = non-nil error). -/
  result : Option String
  /-- how the loop was left. -/
  exit : WorkerExit
  /-- the responses forwarded to the shared `out` stream, in order, each
  paired with whether the overload diagnostic was emitted before its
  (then blocking) send. -/
  sent : List (Response × Bool)
  /-- the stats of this client after the worker's `Count` calls. -/
  stats : clientStats
  deriving Repr, DecidableEq

/-- The `for { select ... } }` loop body of a worker in `Client.Serve`,
given the worker's transport `t` (`req.Do(t)` is `t req`; per the design the
transport encodes failure in `Response.Err` and never itself fails), the
stream of events the worker observes, and the oracle `full` telling whether
the shared out-channel's buffer was full at the worker's i-th send attempt
(`sendIdx` counts those attempts). In both arms of the inner `select` the
response is sent — the `default` arm only adds the overload warning before
the blocking send — so every response is appended to `sent` either way. -/
def workerLoop (t : Request → Response) (full : Nat → Bool) :
    List WorkerEvent → Nat → clientStats → List (Response × Bool) →
    WorkerExit × clientStats × List (Response × Bool)
  | [], _, stats, sent => (WorkerExit.stillBlocked, stats, sent)
  | WorkerEvent.cancel :: _, _, stats, sent => (WorkerExit.canceled, stats, sent)
  | WorkerEvent.recv req :: rest, sendIdx, stats, sent =>
    if req.ID = -1 then (WorkerExit.sentinelDone, stats, sent)
    else
      let resp := t req
      let stats := stats.Count resp.Err resp.Elapsed
      let warned := full sendIdx
      workerLoop t full rest (sendIdx + 1) stats (sent ++ [(resp, warned)])

/-- One worker goroutine of `Client.Serve`: construct the transport
(`tres` is what `NewTransport(client.Endpoint, client.Timeout)` returned —
the transport factory is an external collaborator), return its error on
failure, otherwise run the loop; the loop's `return nil` paths yield a
`none` result. -/
def workerServe (tres : Except String (Request → Response))
    (events : List WorkerEvent) (full : Nat → Bool) (stats : clientStats) :
    WorkerOutcome :=
  match tres with
  | Except.error e =>
      { result := some e, exit := WorkerExit.transportError, sent := [], stats := stats }
  | Except.ok t =>
      let (exit, stats, sent) := workerLoop t full events 0 stats []
      { result := none, exit := exit, sent := sent, stats := stats }

/-- The requests a worker actually executes from an event stream: the
requests received before the first cancellation or sentinel. -/
def processedReqs : List WorkerEvent → List Request
  | [] => []
  | WorkerEvent.cancel :: _ => []
  | WorkerEvent.recv req :: rest =>
    if req.ID = -1 then [] else req :: processedReqs rest

/-- `g.Wait()` of the errgroup running the pool's workers: nil iff every
worker returned nil, otherwise (the first) non-nil error. -/
def poolResult (rs : List (Option String)) : Option String :=
  rs.findSome? id

/-- Drain model for one endpoint's pool after `Finalize`: `r` workers are
still in state RUNNING, all blocked on the shared FIFO queue `q`; at each
step one of them (they are symmetric, so only the count matters) dequeues
the head. A worker that dequeues the sentinel returns (one fewer RUNNING),
any other request keeps it RUNNING. The result is the number of workers
still RUNNING (i.e. left blocked) when the queue is exhausted, together
with the requests left in the queue once no RUNNING worker remains. -/
def drainPool : List Request → Nat → Nat × List Request
  | q, 0 => (0, q)
  | [], r + 1 => (r + 1, [])
  | req :: rest, r + 1 =>
    if req.ID = -1 then drainPool rest r else drainPool rest (r + 1)

/-- Applying `clientStats.Count` once for each element of `calls` (error,
elapsed), starting from the zero-valued aggregator. -/
def runCalls (calls : List (Option String × Int)) : clientStats :=
  calls.foldl (fun s c => s.Count c.1 c.2) clientStats.init

/-- The consistency invariant of the aggregator. -/
def StatsInv (s : clientStats) : Prop :=
  s.NumErrors ≤ s.NumTotal ∧ s.TimeErrors ≤ s.TimeTotal ∧ errSum s.Errors = s.NumErrors

/-- The message of an error-count report line, if the item is one. -/
def errLineMsg : RenderItem → Option String
  | RenderItem.errorLine _ msg => some msg
  | _ => none

/-- The client value `NewClient endpoint concurrency` constructs when Go's
`make` does not panic: `In` of capacity `2*concurrency` (the concurrency
value as requested, before the coercion in `Serve`), zero-valued
`Timeout` and `Stats`. -/
def mkClient (endpoint : String) (concurrency : Int) : Client :=
  { Endpoint := endpoint
    Concurrency := concurrency
    Timeout := 0
    InCap := 2 * concurrency
    InQueue := []
    Stats := clientStats.init }

/-- How the worker loop first leaves its `select` loop for a given event
stream: the first cancellation wins, a received sentinel wins, ordinary
requests keep the loop running. -/
def firstStop : List WorkerEvent → WorkerExit
  | [] => WorkerExit.stillBlocked
  | WorkerEvent.cancel :: _ => WorkerExit.canceled
  | WorkerEvent.recv req :: rest =>
    if req.ID = -1 then WorkerExit.sentinelDone else firstStop rest

/-- The send trace a worker is supposed to leave on the shared output
stream when it executes the requests `l` in order, its send attempts
numbered from `idx`: the i-th response is `t` applied to the i-th request,
and it is delivered with the overload diagnostic exactly when the stream's
buffer was full at that attempt (`full`). -/
def sentTrace (t : Request → Response) (full : Nat → Bool) (idx : Nat) :
    List Request → List (Response × Bool)
  | [] => []
  | r :: rest => (t r, full idx) :: sentTrace t full (idx + 1) rest

theorem lookupErr_incrErr_self (m : List (String × Nat)) (key : String) :
    lookupErr (incrErr m key) key = lookupErr m key + 1 := by
  induction m with
  | nil => simp [incrErr, lookupErr]
  | cons p rest ih =>
    obtain ⟨k, n⟩ := p
    by_cases h : k = key
    · subst h
      simp [incrErr, lookupErr]
    · simp [incrErr, lookupErr, h, ih]

theorem lookupErr_incrErr_ne (m : List (String × Nat)) (key other : String)
    (h : other ≠ key) :
    lookupErr (incrErr m key) other = lookupErr m other := by
  induction m with
  | nil => simp [incrErr, lookupErr, Ne.symm h]
  | cons p rest ih =>
    obtain ⟨k, n⟩ := p
    by_cases hk : k = key
    · subst hk
      simp [incrErr, lookupErr, Ne.symm h]
    · by_cases hko : k = other
      · subst hko
        simp [incrErr, lookupErr, hk]
      · simp [incrErr, lookupErr, hk, hko, ih]

theorem errSum_incrErr (m : List (String × Nat)) (key : String) :
    errSum (incrErr m key) = errSum m + 1 := by
  induction m with
  | nil => simp [incrErr, errSum]
  | cons p rest ih =>
    obtain ⟨k, n⟩ := p
    by_cases h : k = key
    · subst h
      simp [incrErr, errSum]
      omega
    · simp [incrErr, errSum, h] at ih ⊢
      omega

theorem statsInv_init : StatsInv clientStats.init := by
  simp [StatsInv, clientStats.init, errSum]

theorem statsInv_count (s : clientStats) (err : Option String) (elapsed : Int)
    (hinv : StatsInv s) (he : 0 ≤ elapsed) : StatsInv (s.Count err elapsed) := by
  obtain ⟨h1, h2, h3⟩ := hinv
  cases err with
  | none =>
    refine ⟨Nat.le_succ_of_le h1, ?_, h3⟩
    simp [clientStats.Count]
    omega
  | some msg =>
    refine ⟨Nat.succ_le_succ h1, ?_, ?_⟩
    · simp [clientStats.Count]
      omega
    · simp [clientStats.Count, errSum_incrErr, h3]

theorem foldl_count_inv (calls : List (Option String × Int)) :
    ∀ s : clientStats, StatsInv s → (∀ c ∈ calls, 0 ≤ c.2) →
      StatsInv (calls.foldl (fun s c => s.Count c.1 c.2) s) := by
  induction calls with
  | nil => intro s hs _; simpa using hs
  | cons c rest ih =>
    intro s hs hpos
    simp only [List.foldl_cons]
    exact ih _ (statsInv_count s c.1 c.2 hs (hpos c (List.mem_cons_self c rest)))
      fun d hd => hpos d (List.mem_cons_of_mem c hd)

/-- C2: `Record(err, elapsed)` (implemented as `clientStats.Count`) always
increments `NumTotal` by 1 and adds `elapsed` to `TimeTotal`; when `err` is
non-nil it additionally increments `NumErrors`, adds `elapsed` to
`TimeErrors` and increments the count stored for `err`'s message (leaving
every other message's count unchanged); when `err` is nil it touches
nothing else. It is a total function: it returns nothing and never fails. -/
theorem count_record_contract (s : clientStats) (err : Option String) (elapsed : Int) :
    (s.Count err elapsed).NumTotal = s.NumTotal + 1 ∧
    (s.Count err elapsed).TimeTotal = s.TimeTotal + elapsed ∧
    (∀ msg, err = some msg →
      (s.Count err elapsed).NumErrors = s.NumErrors + 1 ∧
      (s.Count err elapsed).TimeErrors = s.TimeErrors + elapsed ∧
      lookupErr (s.Count err elapsed).Errors msg = lookupErr s.Errors msg + 1 ∧
      ∀ k, k ≠ msg → lookupErr (s.Count err elapsed).Errors k = lookupErr s.Errors k) ∧
    (err = none →
      (s.Count err elapsed).NumErrors = s.NumErrors ∧
      (s.Count err elapsed).TimeErrors = s.TimeErrors ∧
      (s.Count err elapsed).Errors = s.Errors) := by
  cases err with
  | none => simp [clientStats.Count]
  | some m =>
    refine ⟨by simp [clientStats.Count], by simp [clientStats.Count], ?_, by simp⟩
    intro msg hmsg
    cases hmsg
    exact ⟨by simp [clientStats.Count], by simp [clientStats.Count],
      by simp [clientStats.Count, lookupErr_incrErr_self],
      fun k hk => by simp [clientStats.Count, lookupErr_incrErr_ne _ _ _ hk]⟩

theorem count_record_contract_witness :
    (clientStats.init.Count (some "refused") 5).NumTotal = clientStats.init.NumTotal + 1 ∧
    (clientStats.init.Count (some "refused") 5).TimeTotal = clientStats.init.TimeTotal + 5 ∧
    (clientStats.init.Count (some "refused") 5).NumErrors = clientStats.init.NumErrors + 1 ∧
    (clientStats.init.Count (some "refused") 5).TimeErrors = clientStats.init.TimeErrors + 5 ∧
    lookupErr (clientStats.init.Count (some "refused") 5).Errors "refused"
      = lookupErr clientStats.init.Errors "refused" + 1 ∧
    lookupErr (clientStats.init.Count (some "refused") 5).Errors "timeout"
      = lookupErr clientStats.init.Errors "timeout" :=
  let h := count_record_contract clientStats.init (some "refused") 5
  ⟨h.1, h.2.1, (h.2.2.1 "refused" rfl).1, (h.2.2.1 "refused" rfl).2.1,
    (h.2.2.1 "refused" rfl).2.2.1,
    (h.2.2.1 "refused" rfl).2.2.2 "timeout" (by decide)⟩

/-- C3: after any finite sequence of `Record` calls with non-negative
elapsed values, applied to the zero-valued aggregator, the state satisfies
`NumErrors ≤ NumTotal`, `TimeErrors ≤ TimeTotal` and
`sum(ErrorsByMessage values) = NumErrors`; moreover `TimeErrors` is only
ever changed by a call whose error was non-nil. -/
theorem stats_consistency (calls : List (Option String × Int))
    (h : ∀ c ∈ calls, 0 ≤ c.2) :
    (runCalls calls).NumErrors ≤ (runCalls calls).NumTotal ∧
    (runCalls calls).TimeErrors ≤ (runCalls calls).TimeTotal ∧
    errSum (runCalls calls).Errors = (runCalls calls).NumErrors ∧
    (∀ (s : clientStats) (e : Int), (s.Count none e).TimeErrors = s.TimeErrors) := by
  have hinv := foldl_count_inv calls clientStats.init statsInv_init h
  exact ⟨hinv.1, hinv.2.1, hinv.2.2, fun s e => by simp [clientStats.Count]⟩

theorem stats_consistency_witness :
    (runCalls [(some "refused", 3), (none, 2)]).NumErrors
        ≤ (runCalls [(some "refused", 3), (none, 2)]).NumTotal ∧
    (runCalls [(some "refused", 3), (none, 2)]).TimeErrors
        ≤ (runCalls [(some "refused", 3), (none, 2)]).TimeTotal ∧
    errSum (runCalls [(some "refused", 3), (none, 2)]).Errors
        = (runCalls [(some "refused", 3), (none, 2)]).NumErrors ∧
    (clientStats.init.Count none 2).TimeErrors = clientStats.init.TimeErrors :=
  let h := stats_consistency [(some "refused", 3), (none, 2)] (by decide)
  ⟨h.1, h.2.1, h.2.2.1, h.2.2.2 clientStats.init 2⟩

theorem filterMap_errLine (l : List (String × Nat)) :
    List.filterMap (errLineMsg ∘ fun p => RenderItem.errorLine p.2 p.1) l
      = l.map Prod.fst := by
  induction l with
  | nil => rfl
  | cons p rest ih => simp [List.filterMap_cons, Function.comp, errLineMsg, ih]

/-- C1 (the code contradicts it): on an aggregator with `NumTotal = 0`,
`Render` does write the "no requests" message, but it does **not** stop
there: the guard has no `return`, so execution falls through into the
ratio computations (`errRate` and `rps` become the float NaN `0/0`) and
panics at `reqAvg := stats.TimeTotal / time.Duration(stats.NumTotal)`,
an integer division by zero. The model evaluates the code at the failing
input: the emitted output is exactly the "no requests" line and the call
ends in the panic (`none`) instead of returning. -/
theorem render_zero_total_falls_through :
    clientStats.init.Render (fun _ => none) = ([RenderItem.noRequests], none) := by
  decide

/-- C10 as stated is false: it quantifies over every state "including
`NumTotal == 0`", but there `Render` panics on an integer division by zero
and never returns at all — in particular it does not return a nil error. -/
theorem render_always_nil_counterexample :
    (clientStats.init.Render (fun _ => some "disk full")).2 ≠ some none := by
  decide

/-- C10 amended: for every aggregator state with `NumTotal ≠ 0` and every
writer behaviour — including a writer every one of whose writes fails —
`Render` returns, and the error it returns is nil: the results of all
`fmt.Fprintf` calls are discarded, so writer failures are ignored rather
than propagated, despite the `error` in the public signature. -/
theorem render_returns_nil (s : clientStats) (w : Nat → Option String)
    (h : s.NumTotal ≠ 0) : (s.Render w).2 = some none := by
  simp [clientStats.Render, h]

theorem render_returns_nil_witness :
    (({ NumTotal := 1, NumErrors := 0, TimeErrors := 0, TimeTotal := 7,
        Errors := [] } : clientStats).Render (fun _ => some "disk full")).2
      = some none :=
  render_returns_nil _ (fun _ => some "disk full") (by decide)

/-- C8: on an aggregator with `NumTotal > 0` (whose `Errors` field is a
genuine map, i.e. has distinct keys), `Render` reports requests/sec
`NumTotal / TimeTotal.Seconds()`, average latency `TimeTotal / NumTotal`,
error rate `100 × NumErrors / NumTotal`; the mean error latency
`TimeErrors / NumErrors` appears if and only if `NumErrors > 0` and
`NumErrors ≠ NumTotal`; and one line is emitted per distinct error message
with its occurrence count. -/
theorem render_nonzero_report (s : clientStats) (w : Nat → Option String)
    (h : 0 < s.NumTotal) (hkeys : (s.Errors.map Prod.fst).Nodup) :
    (s.Render w).1 =
      [RenderItem.requestsPerSec ((s.NumTotal : ℚ) / ((s.TimeTotal : ℚ) / 1000000000))]
        ++ (if 0 < s.NumErrors ∧ s.NumErrors ≠ s.NumTotal then
              [RenderItem.perError (Int.tdiv s.TimeErrors (s.NumErrors : Int))]
            else [])
        ++ [RenderItem.average (Int.tdiv s.TimeTotal (s.NumTotal : Int)),
            RenderItem.errorRate ((100 * s.NumErrors : ℚ) / (s.NumTotal : ℚ))]
        ++ s.Errors.map (fun p => RenderItem.errorLine p.2 p.1) ∧
    ((0 < s.NumErrors ∧ s.NumErrors ≠ s.NumTotal) →
      RenderItem.perError (Int.tdiv s.TimeErrors (s.NumErrors : Int)) ∈ (s.Render w).1) ∧
    (¬(0 < s.NumErrors ∧ s.NumErrors ≠ s.NumTotal) →
      ∀ a : Int, RenderItem.perError a ∉ (s.Render w).1) ∧
    ((s.Render w).1.filterMap errLineMsg = s.Errors.map Prod.fst ∧
      ((s.Render w).1.filterMap errLineMsg).Nodup) := by
  have hne : s.NumTotal ≠ 0 := Nat.pos_iff_ne_zero.mp h
  have hitems : (s.Render w).1 =
      [RenderItem.requestsPerSec ((s.NumTotal : ℚ) / ((s.TimeTotal : ℚ) / 1000000000))]
        ++ (if 0 < s.NumErrors ∧ s.NumErrors ≠ s.NumTotal then
              [RenderItem.perError (Int.tdiv s.TimeErrors (s.NumErrors : Int))]
            else [])
        ++ [RenderItem.average (Int.tdiv s.TimeTotal (s.NumTotal : Int)),
            RenderItem.errorRate ((100 * s.NumErrors : ℚ) / (s.NumTotal : ℚ))]
        ++ s.Errors.map (fun p => RenderItem.errorLine p.2 p.1) := by
    simp [clientStats.Render, hne, mul_comm]
  refine ⟨hitems, ?_, ?_, ?_, ?_⟩
  · intro hc
    rw [hitems]
    simp [hc]
  · intro hc a
    rw [hitems]
    simp [hc, errLineMsg]
  · rw [hitems]
    by_cases hc : 0 < s.NumErrors ∧ s.NumErrors ≠ s.NumTotal <;>
      simp [hc, errLineMsg, List.filterMap_map, filterMap_errLine]
  · rw [hitems]
    by_cases hc : 0 < s.NumErrors ∧ s.NumErrors ≠ s.NumTotal <;>
      simpa [hc, errLineMsg, List.filterMap_map, filterMap_errLine] using hkeys

theorem render_nonzero_report_witness :
    (({ NumTotal := 4, NumErrors := 1, TimeErrors := 2, TimeTotal := 10,
        Errors := [("refused", 1)] } : clientStats).Render (fun _ => none)).1 =
      [RenderItem.requestsPerSec ((4 : ℚ) / ((10 : ℚ) / 1000000000)),
        RenderItem.perError (Int.tdiv 2 1),
        RenderItem.average (Int.tdiv 10 4),
        RenderItem.errorRate ((100 * 1 : ℚ) / (4 : ℚ)),
        RenderItem.errorLine 1 "refused"] := by
  have h := render_nonzero_report
    { NumTotal := 4, NumErrors := 1, TimeErrors := 2, TimeTotal := 10,
      Errors := [("refused", 1)] } (fun _ => none) (by decide) (by decide)
  rw [h.1]
  norm_num

/-- C6 as stated is false at `concurrency = 0`: `NewClient` sizes the
channel with `make(chan Request, 2*concurrency)` **before** any coercion
(the coercion to 1 happens only later, in `Serve`, after the channel
exists), so a client requested with concurrency 0 runs 1 worker but has a
queue of capacity 0, not `2 × 1 = 2`. -/
theorem queue_capacity_counterexample :
    NewClient "x" 0 = some (mkClient "x" 0) ∧
    (serveCoerce (mkClient "x" 0)).Concurrency = 1 ∧
    (mkClient "x" 0).InCap = 0 ∧
    (mkClient "x" 0).InCap ≠ 2 * (serveCoerce (mkClient "x" 0)).Concurrency := by
  refine ⟨?_, by decide, by decide, by decide⟩
  simp [NewClient, mkClient]

/-- C6 amended: for every endpoint and every requested concurrency `k ≥ 0`
(`make` panics for `k < 0`), `NewClient` yields a client whose queue
capacity is `2 × k` — `k` as requested, not the coerced value — while the
worker count after `Serve`'s coercion is `max k 1 ≥ 1`; the stated equality
"capacity = 2 × coerced concurrency" holds exactly when `k ≥ 1`. -/
theorem queue_capacity (endpoint : String) (k : Int) (h : 0 ≤ k) :
    NewClient endpoint k = some (mkClient endpoint k) ∧
    (mkClient endpoint k).InCap = 2 * k ∧
    (serveCoerce (mkClient endpoint k)).Concurrency = max k 1 ∧
    1 ≤ (serveCoerce (mkClient endpoint k)).Concurrency ∧
    (1 ≤ k →
      (mkClient endpoint k).InCap = 2 * (serveCoerce (mkClient endpoint k)).Concurrency) := by
  refine ⟨?_, rfl, ?_, ?_, ?_⟩
  · simp [NewClient, mkClient]
    omega
  · by_cases hk : k < 1
    · rw [max_eq_right (by omega : k ≤ 1)]
      simp [serveCoerce, mkClient, hk]
    · rw [max_eq_left (by omega : 1 ≤ k)]
      simp [serveCoerce, mkClient, hk]
  · by_cases hk : k < 1 <;> simp [serveCoerce, mkClient, hk] <;> omega
  · intro h1
    simp [serveCoerce, mkClient, not_lt.mpr h1]

theorem queue_capacity_witness :
    NewClient "http://a" 3 = some (mkClient "http://a" 3) ∧
    (mkClient "http://a" 3).InCap = 2 * 3 ∧
    (serveCoerce (mkClient "http://a" 3)).Concurrency = max 3 1 ∧
    1 ≤ (serveCoerce (mkClient "http://a" 3)).Concurrency ∧
    ((1 : Int) ≤ 3 →
      (mkClient "http://a" 3).InCap = 2 * (serveCoerce (mkClient "http://a" 3)).Concurrency) :=
  queue_capacity "http://a" 3 (by decide)

theorem runIds_eq (lines : List (String × Int)) :
    ∀ st : SendState,
      runIds st lines = (List.range lines.length).map (fun i : Nat => st.id + (i : Int) + 1) := by
  induction lines with
  | nil => intro st; rfl
  | cons l rest ih =>
    intro st
    show (Send st l.1 l.2).id :: runIds (Send st l.1 l.2) rest
      = (List.range (l :: rest).length).map (fun i : Nat => st.id + (i : Int) + 1)
    rw [ih (Send st l.1 l.2), List.length_cons, List.range_succ_eq_map, List.map_cons,
      List.map_map]
    congr 1
    · simp [Send]
    · refine List.map_congr_left fun i _ => ?_
      simp only [Function.comp_apply, Send]
      push_cast
      ring

/-- C4: an uncancelled `Send` increments the shared counter `id` by one
(so the first call of a run, where `id` still has its zero value, assigns
1), appends to every endpoint's queue exactly one request carrying that
same id and the same payload, and the new id is strictly greater than the
id of every request previously enqueued anywhere; over a whole run from the
initial state the assigned ids are `1, 2, …, n`, strictly increasing. -/
theorem send_broadcast (st : SendState) (line : String) (now : Int)
    (hb : ∀ q ∈ st.queues, ∀ r ∈ q, r.ID ≤ st.id) :
    (Send st line now).id = st.id + 1 ∧
    (st.id = 0 → (Send st line now).id = 1) ∧
    (Send st line now).queues
      = st.queues.map
          (fun q => q ++ [{ ID := st.id + 1, Line := line, Timestamp := now }]) ∧
    (∀ q ∈ st.queues, ∀ r ∈ q, r.ID < (Send st line now).id) ∧
    (∀ (n : Nat) (lines : List (String × Int)),
      runIds (SendState.initial n) lines
        = (List.range lines.length).map (fun i : Nat => (i : Int) + 1)) := by
  refine ⟨rfl, fun h0 => by simp [Send, h0], rfl, ?_, ?_⟩
  · intro q hq r hr
    exact lt_of_le_of_lt (hb q hq r hr) (by simp [Send])
  · intro n lines
    rw [runIds_eq lines (SendState.initial n)]
    refine List.map_congr_left fun i _ => ?_
    simp [SendState.initial]

theorem send_broadcast_witness :
    (Send { id := 2, queues := [[{ ID := 1, Line := "a", Timestamp := 0 }], []] } "c" 7).id
      = (2 : Int) + 1 ∧
    (((2 : Int) = 0) →
      (Send { id := 2, queues := [[{ ID := 1, Line := "a", Timestamp := 0 }], []] } "c" 7).id
        = 1) ∧
    (Send { id := 2, queues := [[{ ID := 1, Line := "a", Timestamp := 0 }], []] } "c" 7).queues
      = [[{ ID := 1, Line := "a", Timestamp := 0 }], []].map
          (fun q => q ++ [{ ID := (2 : Int) + 1, Line := "c", Timestamp := 7 }]) ∧
    (∀ q ∈ [[{ ID := 1, Line := "a", Timestamp := 0 }], ([] : List Request)], ∀ r ∈ q,
      r.ID < (Send { id := 2, queues := [[{ ID := 1, Line := "a", Timestamp := 0 }], []] }
        "c" 7).id) ∧
    runIds (SendState.initial 2) [("a", 0), ("b", 1)]
      = (List.range 2).map (fun i : Nat => (i : Int) + 1) :=
  let h := send_broadcast { id := 2, queues := [[{ ID := 1, Line := "a", Timestamp := 0 }], []] }
    "c" 7 (by decide)
  ⟨h.1, h.2.1, h.2.2.1, h.2.2.2.1, h.2.2.2.2 2 [("a", 0), ("b", 1)]⟩

theorem drainPool_skip (x : List Request) (k : Nat) (hk : k ≠ 0) :
    ∀ reals : List Request, (∀ r ∈ reals, r.ID ≠ -1) →
      drainPool (reals ++ x) k = drainPool x k := by
  intro reals
  induction reals with
  | nil => intro _; rfl
  | cons r rest ih =>
    intro h
    obtain ⟨k', rfl⟩ : ∃ k', k = k' + 1 := ⟨k - 1, by omega⟩
    rw [List.cons_append]
    show drainPool (r :: (rest ++ x)) (k' + 1) = drainPool x (k' + 1)
    rw [drainPool, if_neg (h r (List.mem_cons_self r rest))]
    exact ih fun r' hr' => h r' (List.mem_cons_of_mem _ hr')

theorem drainPool_replicate (k : Nat) :
    drainPool (List.replicate k sentinel) k = (0, []) := by
  induction k with
  | zero => rfl
  | succ k' ih =>
    rw [List.replicate_succ]
    show drainPool (sentinel :: List.replicate k' sentinel) (k' + 1) = (0, [])
    rw [drainPool, if_pos (show sentinel.ID = -1 from rfl)]
    exact ih

/-- C5: for an endpoint whose pool runs with `k` workers — after `Serve`'s
coercion the `Concurrency` field equals the worker count `k ≥ 1`, also for
endpoints constructed with a request below 1 — `Finalize` appends exactly
`k` sentinel requests (`ID = -1`) to that endpoint's queue, and draining
the queue with `k` running workers (each worker returning at its first
sentinel) ends with zero workers still blocked and an empty queue: each of
the `k` workers consumed exactly one of the `k` sentinels. -/
theorem finalize_sentinel_delivery (c : Client) (k : Nat) (hk : 1 ≤ k)
    (hc : c.Concurrency = (k : Int)) (hq : ∀ r ∈ c.InQueue, r.ID ≠ -1) :
    (finalizeClient c).InQueue = c.InQueue ++ List.replicate k sentinel ∧
    (List.replicate k sentinel).length = k ∧
    (∀ r ∈ List.replicate k sentinel, r.ID = -1) ∧
    drainPool (finalizeClient c).InQueue k = (0, []) ∧
    (∀ d : Client, 1 ≤ (serveCoerce d).Concurrency) := by
  have hqueue : (finalizeClient c).InQueue = c.InQueue ++ List.replicate k sentinel := by
    simp [finalizeClient, hc]
  refine ⟨hqueue, List.length_replicate k sentinel, ?_, ?_, ?_⟩
  · intro r hr
    rw [List.eq_of_mem_replicate hr]
    rfl
  · rw [hqueue, drainPool_skip _ k (by omega) c.InQueue hq]
    exact drainPool_replicate k
  · intro d
    by_cases hd : d.Concurrency < 1
    · simp [serveCoerce, hd]
    · simp only [serveCoerce, if_neg hd]
      omega

theorem finalize_sentinel_delivery_witness :
    (finalizeClient ({ Endpoint := "e", Concurrency := 2, Timeout := 0, InCap := 4,
                       InQueue := [{ ID := 1, Line := "a", Timestamp := 0 }],
                       Stats := clientStats.init } : Client)).InQueue
      = [{ ID := 1, Line := "a", Timestamp := 0 }] ++ List.replicate 2 sentinel ∧
    (List.replicate 2 sentinel).length = 2 ∧
    (∀ r ∈ List.replicate 2 sentinel, r.ID = -1) ∧
    drainPool (finalizeClient ({ Endpoint := "e", Concurrency := 2, Timeout := 0,
                                 InCap := 4,
                                 InQueue := [{ ID := 1, Line := "a", Timestamp := 0 }],
                                 Stats := clientStats.init } : Client)).InQueue 2
      = (0, []) ∧
    1 ≤ (serveCoerce ({ Endpoint := "e", Concurrency := 0, Timeout := 0, InCap := 0,
                        InQueue := [], Stats := clientStats.init } : Client)).Concurrency :=
  let h := finalize_sentinel_delivery
    ({ Endpoint := "e", Concurrency := 2, Timeout := 0, InCap := 4,
       InQueue := [{ ID := 1, Line := "a", Timestamp := 0 }],
       Stats := clientStats.init } : Client)
    2 (by decide) (by decide) (by decide)
  ⟨h.1, h.2.1, h.2.2.1, h.2.2.2.1,
    h.2.2.2.2 ({ Endpoint := "e", Concurrency := 0, Timeout := 0, InCap := 0,
                 InQueue := [], Stats := clientStats.init } : Client)⟩

theorem workerLoop_sent (t : Request → Response) (full : Nat → Bool) :
    ∀ (events : List WorkerEvent) (idx : Nat) (stats : clientStats)
      (acc : List (Response × Bool)),
      (workerLoop t full events idx stats acc).2.2
        = acc ++ sentTrace t full idx (processedReqs events) := by
  intro events
  induction events with
  | nil => intro idx stats acc; simp [workerLoop, processedReqs, sentTrace]
  | cons e rest ih =>
    intro idx stats acc
    cases e with
    | cancel => simp [workerLoop, processedReqs, sentTrace]
    | recv req =>
      by_cases h : req.ID = -1
      · simp [workerLoop, processedReqs, sentTrace, h]
      · simp only [workerLoop, processedReqs, sentTrace, if_neg h, ih]
        simp

theorem workerLoop_exit (t : Request → Response) (full : Nat → Bool) :
    ∀ (events : List WorkerEvent) (idx : Nat) (stats : clientStats)
      (acc : List (Response × Bool)),
      (workerLoop t full events idx stats acc).1 = firstStop events := by
  intro events
  induction events with
  | nil => intro idx stats acc; rfl
  | cons e rest ih =>
    intro idx stats acc
    cases e with
    | cancel => rfl
    | recv req =>
      by_cases h : req.ID = -1
      · simp [workerLoop, firstStop, h]
      · simp only [workerLoop, firstStop, if_neg h, ih]

theorem sentTrace_map_fst (t : Request → Response) (full : Nat → Bool) :
    ∀ (l : List Request) (idx : Nat),
      (sentTrace t full idx l).map Prod.fst = l.map t := by
  intro l
  induction l with
  | nil => intro idx; rfl
  | cons r rest ih => intro idx; simp [sentTrace, ih]

/-- C7: for every worker and every behaviour of the shared output stream's
buffer (the oracle `full`), the responses the worker forwards are exactly
the responses it produced, in order — the trace equals `sentTrace`, whose
i-th entry carries the overload diagnostic precisely when the buffer was
full at the i-th attempt, and whose response list is independent of the
oracle: whether or not the consumer applies backpressure, no produced
response is ever dropped (the `default` arm only warns and then blocks;
it sends the response either way). -/
theorem worker_no_response_dropped (t : Request → Response)
    (events : List WorkerEvent) (full full' : Nat → Bool) (stats : clientStats) :
    (workerServe (Except.ok t) events full stats).sent
      = sentTrace t full 0 (processedReqs events) ∧
    (workerServe (Except.ok t) events full stats).sent.map Prod.fst
      = (processedReqs events).map t ∧
    (workerServe (Except.ok t) events full stats).sent.map Prod.fst
      = (workerServe (Except.ok t) events full' stats).sent.map Prod.fst := by
  have h1 : (workerServe (Except.ok t) events full stats).sent
      = sentTrace t full 0 (processedReqs events) := by
    simpa using workerLoop_sent t full events 0 stats []
  have h1' : (workerServe (Except.ok t) events full' stats).sent
      = sentTrace t full' 0 (processedReqs events) := by
    simpa using workerLoop_sent t full' events 0 stats []
  refine ⟨h1, ?_, ?_⟩
  · rw [h1, sentTrace_map_fst]
  · rw [h1, h1', sentTrace_map_fst, sentTrace_map_fst]

theorem poolResult_all_none (rs : List (Option String)) (h : ∀ r ∈ rs, r = none) :
    poolResult rs = none := by
  induction rs with
  | nil => rfl
  | cons r rest ih =>
    have hr : r = none := h r (List.mem_cons_self r rest)
    subst hr
    simp only [poolResult, List.findSome?_cons, id]
    exact ih fun r' hr' => h r' (List.mem_cons_of_mem _ hr')

theorem poolResult_first_error (e : String) (n : Nat) (rest : List (Option String)) :
    poolResult (List.replicate n (none : Option String) ++ some e :: rest) = some e := by
  induction n with
  | zero => simp [poolResult, List.findSome?_cons, id]
  | succ n' ih =>
    rw [List.replicate_succ, List.cons_append]
    simpa only [poolResult, List.findSome?_cons, id] using ih

/-- C9: a worker whose transport construction failed returns that error,
which the errgroup surfaces as the pool's result when the other workers
shut down cleanly; a worker whose transport was built never returns an
error — it leaves its loop exactly as the first cancellation or sentinel
in its event stream dictates — so a sentinel-driven or cancellation-driven
shutdown of a pool (every worker result nil) yields a nil pool result. -/
theorem worker_exit_and_pool_result (e : String) (t : Request → Response)
    (events : List WorkerEvent) (full : Nat → Bool) (stats : clientStats)
    (n : Nat) (rest rs : List (Option String))
    (hclean : ∀ r ∈ rs, r = none) :
    (workerServe (Except.error e) events full stats).result = some e ∧
    (workerServe (Except.error e) events full stats).exit = WorkerExit.transportError ∧
    (workerServe (Except.ok t) events full stats).result = none ∧
    (workerServe (Except.ok t) events full stats).exit = firstStop events ∧
    poolResult (List.replicate n (none : Option String) ++ some e :: rest) = some e ∧
    poolResult rs = none := by
  refine ⟨rfl, rfl, rfl, ?_, poolResult_first_error e n rest, poolResult_all_none rs hclean⟩
  show (workerLoop t full events 0 stats []).1 = firstStop events
  exact workerLoop_exit t full events 0 stats []

theorem worker_exit_and_pool_result_witness :
    (workerServe (Except.error "dial failed")
        [WorkerEvent.recv { ID := 5, Line := "a", Timestamp := 0 }, WorkerEvent.cancel]
        (fun _ => false) clientStats.init).result = some "dial failed" ∧
    (workerServe (Except.error "dial failed")
        [WorkerEvent.recv { ID := 5, Line := "a", Timestamp := 0 }, WorkerEvent.cancel]
        (fun _ => false) clientStats.init).exit = WorkerExit.transportError ∧
    (workerServe (Except.ok fun _ => { Err := none, Elapsed := 1 })
        [WorkerEvent.recv { ID := 5, Line := "a", Timestamp := 0 }, WorkerEvent.cancel]
        (fun _ => false) clientStats.init).result = none ∧
    (workerServe (Except.ok fun _ => { Err := none, Elapsed := 1 })
        [WorkerEvent.recv { ID := 5, Line := "a", Timestamp := 0 }, WorkerEvent.cancel]
        (fun _ => false) clientStats.init).exit
      = firstStop [WorkerEvent.recv { ID := 5, Line := "a", Timestamp := 0 },
          WorkerEvent.cancel] ∧
    poolResult (List.replicate 2 (none : Option String) ++ some "dial failed" :: [])
      = some "dial failed" ∧
    poolResult [none, none] = none :=
  worker_exit_and_pool_result "dial failed" (fun _ => { Err := none, Elapsed := 1 })
    [WorkerEvent.recv { ID := 5, Line := "a", Timestamp := 0 }, WorkerEvent.cancel]
    (fun _ => false) clientStats.init 2 [] [none, none] (by decide)

end Versus
